import Mathlib

/-!
Verification of the Local-Pi-Assistant repository.

This file gives a shallow embedding of the parts of the code that the
claims C1..C10 are about:

* `src/autonomous/task_queue.py` — the SQLite-backed task queue
  (`next_pending`, `start`, `complete`, `fail`, `pause_running`);
* `src/core/executor.py` — the agentic tool-use loop `execute_task`;
* `src/core/model_manager.py` — `check_for_escalation`;
* `src/core/pipeline_pre.py` — `run_pre_pipeline` and `_heuristic_category`;
* `src/autonomous/heartbeat.py` — pause/resume and `_tick`;
* `src/server.py` — the `/chat` agentic loops `_run_model` /
  `_run_model_streaming`.

Timestamps are modelled as natural numbers (ISO-8601 strings compare in
the same order as the instants they denote; one unit is read as one
minute for the task queue's backoff arithmetic and one second for the
heartbeat cooldown — the two scales never interact in any claim).
Model replies and skill results are inputs of the embedded loops,
supplied as explicit streams/functions.
-/

/-! ## Task queue (`src/autonomous/task_queue.py`) -/

/-- One row of the `tasks` table (fields of the claims; `tags`/`context`
are carried as opaque strings). -/
structure QTask where
  id : Nat
  title : String
  description : String
  taskType : String
  priority : Nat
  priorityName : String
  status : String
  createdAt : Nat
  scheduledAt : Nat
  startedAt : Option Nat
  completedAt : Option Nat
  resultSummary : Option String
  retryCount : Nat
  maxRetries : Nat
  parentId : Option Nat
  tags : String
  context : String
deriving Repr, DecidableEq

/-- One row of the `task_log` table. -/
structure QLog where
  taskId : Nat
  event : String
  detail : String
  time : Nat
deriving Repr, DecidableEq

/-- The queue's persistent state: the `tasks` table (in rowid order) and
the `task_log` table. -/
structure QStore where
  tasks : List QTask
  log : List QLog
deriving Repr, DecidableEq

/-- `UPDATE tasks SET ... WHERE id=?`: apply `f` to every row whose `id`
matches. -/
def updateTaskRows (l : List QTask) (id : Nat) (f : QTask → QTask) : List QTask :=
  l.map (fun r => if r.id = id then f r else r)

/-- Eligibility test of `next_pending`:
`status='pending' AND scheduled_at <= now`. -/
def eligibleB (now : Nat) (t : QTask) : Bool :=
  t.status == "pending" && decide (t.scheduledAt ≤ now)

/-- Strict `(priority, created_at)` lexicographic order used by
`ORDER BY priority ASC, created_at ASC`. -/
def keyLtB (t u : QTask) : Bool :=
  decide (t.priority < u.priority) ||
    (t.priority == u.priority && decide (t.createdAt < u.createdAt))

/-- Reflexive `(priority, created_at)` lexicographic order. -/
def keyLe (t u : QTask) : Prop :=
  t.priority < u.priority ∨ (t.priority = u.priority ∧ t.createdAt ≤ u.createdAt)

/-- First row of a list that is minimal for `(priority, created_at)`
(earlier rows win ties, modelling a deterministic `LIMIT 1`). -/
def pickBest : List QTask → Option QTask
  | [] => none
  | t :: ts =>
    match pickBest ts with
    | none => some t
    | some b => if keyLtB b t then some b else some t

/-- `TaskQueue.next_pending`: the eligible row minimal for
`ORDER BY priority ASC, created_at ASC` (`LIMIT 1`), or none.  A pure
read: it takes the task list and returns only an optional row. -/
def nextPending (tasks : List QTask) (now : Nat) : Option QTask :=
  pickBest (tasks.filter (eligibleB now))

/-- `TaskQueue.start`: `UPDATE tasks SET status='running', started_at=?
WHERE id=?` (note: the predicate matches on `id` only), then a
`started` log entry. -/
def startTask (s : QStore) (id : Nat) (now : Nat) : QStore :=
  { tasks := updateTaskRows s.tasks id
      (fun r => { r with status := "running", startedAt := some now }),
    log := s.log ++ [⟨id, "started", "", now⟩] }

/-- `TaskQueue.complete`: `UPDATE tasks SET status='done',
completed_at=?, result_summary=? WHERE id=?` (predicate on `id` only),
then a `completed` log entry. -/
def completeTask (s : QStore) (id : Nat) (summary : String) (now : Nat) : QStore :=
  { tasks := updateTaskRows s.tasks id
      (fun r => { r with status := "done", completedAt := some now,
                         resultSummary := some (summary.take 1000) }),
    log := s.log ++ [⟨id, "completed", summary.take 200, now⟩] }

/-- `TaskQueue.fail`: fetch the row's `retry_count`/`max_retries`; if
`retry_count < max_retries` reschedule as pending with exponential
backoff `5 * 2 ** retry_count`, else mark failed. -/
def failTask (s : QStore) (id : Nat) (reason : String) (now : Nat) : QStore :=
  match s.tasks.find? (fun r => decide (r.id = id)) with
  | none => s
  | some t =>
    if t.retryCount < t.maxRetries then
      { tasks := updateTaskRows s.tasks id
          (fun r => { r with status := "pending", retryCount := r.retryCount + 1,
                             scheduledAt := now + 5 * 2 ^ t.retryCount }),
        log := s.log ++ [⟨id, "retry_scheduled",
          "attempt " ++ toString (t.retryCount + 1) ++ ", retry in " ++
            toString (5 * 2 ^ t.retryCount) ++ "m", now⟩] }
    else
      { tasks := updateTaskRows s.tasks id
          (fun r => { r with status := "failed", completedAt := some now,
                             resultSummary := some ("FAILED: " ++ reason) }),
        log := s.log ++ [⟨id, "failed", reason, now⟩] }

/-- `TaskQueue.pause_running`: `UPDATE tasks SET status='pending',
started_at=NULL WHERE status='running'`. -/
def pauseRunning (s : QStore) : QStore :=
  { tasks := s.tasks.map
      (fun r => if r.status = "running"
        then { r with status := "pending", startedAt := none } else r),
    log := s.log }

/-- `TaskQueue.pending_count`: `COUNT(*) WHERE status='pending'`. -/
def pendingCount (s : QStore) : Nat :=
  (s.tasks.filter (fun r => r.status == "pending")).length

/-! ## Concrete tasks used by witnesses and counterexamples -/

/-- A concrete task row builder (remaining fields fixed). -/
def mkTask (id : Nat) (priority : Nat) (status : String)
    (createdAt scheduledAt : Nat) (retryCount maxRetries : Nat) : QTask :=
  ⟨id, "t", "d", "custom", priority, "normal", status, createdAt, scheduledAt,
   none, none, none, retryCount, maxRetries, none, "[]", "\x7b\x7d"⟩

/-! ## String scanning (the `re` patterns used by the loops)

`re.search(r"FINAL:\s*(.*)", reply, re.DOTALL)` takes everything after
the first `FINAL:`; `re.search(r"SKILL:\s*(\{.*?\})", ...)` takes the
first `SKILL:` that is followed (after whitespace) by a brace block,
lazily up to the first closing brace; `<think>...</think>` handling
finds the first think block.  These are embedded as direct scans over
the character list. -/

/-- Left brace character (written via its code point). -/
def lbrace : Char := Char.ofNat 123

/-- Right brace character (written via its code point). -/
def rbrace : Char := Char.ofNat 125

/-- Python `str.strip()`: whitespace removed from both ends (written
over the character list so that it evaluates by `decide`). -/
def pyStrip (s : String) : String :=
  String.mk (((s.toList.dropWhile Char.isWhitespace).reverse.dropWhile
    Char.isWhitespace).reverse)

/-- Does `pat` occur at the head of `cs`? -/
def matchesAt : List Char → List Char → Bool
  | [], _ => true
  | _ :: _, [] => false
  | p :: ps, c :: cs => p == c && matchesAt ps cs

/-- Split `cs` around the first occurrence of `pat`: the part before it
and the part after it. -/
def findSplit (pat : List Char) : List Char → Option (List Char × List Char)
  | [] => if matchesAt pat [] then some ([], []) else none
  | c :: cs =>
    if matchesAt pat (c :: cs) then some ([], (c :: cs).drop pat.length)
    else
      match findSplit pat cs with
      | some (pre, post) => some (c :: pre, post)
      | none => none

/-- `re.search(r"FINAL:\s*(.*)", reply, re.DOTALL)` followed by
`.strip()` of the capture: everything after the first `FINAL:`,
trimmed. -/
def findFinal (reply : String) : Option String :=
  match findSplit (String.toList ("FINAL:")) reply.toList with
  | some (_, post) => some (pyStrip (String.mk post))
  | none => none

/-- The lazy brace block `\{.*?\}`: up to and including the first `}`. -/
def takeToRb : List Char → Option (List Char)
  | [] => none
  | c :: cs => if c == rbrace then some [c] else (takeToRb cs).map (fun l => c :: l)

/-- Scan for the first `SKILL:` occurrence followed by optional
whitespace and a brace block; yields the brace block text. -/
def skillScan : List Char → Option String
  | [] => none
  | c :: cs =>
    if matchesAt (String.toList ("SKILL:")) (c :: cs) then
      match (((c :: cs).drop 6).dropWhile Char.isWhitespace) with
      | d :: ds =>
        if d == lbrace then
          match takeToRb ds with
          | some inner => some (String.mk (d :: inner))
          | none => skillScan cs
        else skillScan cs
      | [] => skillScan cs
    else skillScan cs

/-- `re.search(r"SKILL:\s*(\{.*?\})", reply, re.DOTALL)`: the captured
JSON text, if any. -/
def findSkill (reply : String) : Option String := skillScan reply.toList

/-- The DeepSeek-R1 think-block handling shared by all three loops:
when a `<think>...</think>` block exists, remove (all occurrences of)
its exact text and strip; otherwise the reply is used unchanged. -/
def stripThink (raw : String) : String :=
  match findSplit (String.toList ("<think>")) raw.toList with
  | none => raw
  | some (_, post) =>
    match findSplit (String.toList ("</think>")) post with
    | none => raw
    | some (inner, _) =>
      pyStrip (raw.replace (String.mk (String.toList ("<think>") ++ inner ++
        String.toList ("</think>"))) (""))

/-! ## Executor (`src/core/executor.py`) -/

/-- One `ollama.chat` outcome: a reply, or a `ResponseError` whose text
signals out-of-memory (a non-OOM error propagates out of
`execute_task` and is not part of the loop's own behaviour). -/
inductive ModelResp where
  | ok (content : String)
  | oomErr (msg : String)

/-- The result dict of `execute_task`. -/
structure ExecResult where
  output : String
  success : Bool
  failureReason : Option String
  toolCalls : Nat
  model : String
deriving Repr, DecidableEq

/-- A fuelled run of the `while` loop: `outOfFuel` means the loop was
still running (asking the model again) after consuming `fuel` replies. -/
inductive ExecOutcome where
  | done (r : ExecResult)
  | outOfFuel
deriving Repr, DecidableEq

/-- `re.sub(r"<think>.*?</think>", "", reply)`: drop every think
block (fuelled by the text length, which bounds the block count). -/
def stripAllThinkAux : Nat → List Char → List Char
  | 0, cs => cs
  | n + 1, cs =>
    match findSplit (String.toList ("<think>")) cs with
    | none => cs
    | some (pre, post) =>
      match findSplit (String.toList ("</think>")) post with
      | none => cs
      | some (_, after) => pre ++ stripAllThinkAux n after

/-- All think blocks removed. -/
def stripAllThink (s : String) : String := String.mk (stripAllThinkAux s.length s.toList)

/-- `re.sub(r"^SKILL:.*$", "", reply, flags=re.MULTILINE)`. -/
def removeSkillLines (s : String) : String :=
  String.intercalate ("\n")
    ((s.splitOn ("\n")).map (fun l => if l.startsWith ("SKILL:") then "" else l))

/-- `_extract_best_output`: think blocks and `SKILL:` lines removed,
stripped, defaulting to a placeholder. -/
def extractBestOutput (reply : String) : String :=
  let r2 := (removeSkillLines ((stripAllThink reply).trim)).trim
  if r2 = "" then "No output generated." else r2

/-- The `TOOL_USE_PROMPT` template (braces written via code points). -/
def toolUsePrompt (prompt : String) : String :=
  "Task: " ++ prompt ++
  "\n\nRemember:\n- Use SKILL: \x7b\"name\": \"...\", \"args\": \x7b...\x7d\x7d to call tools\n- Chain multiple skill calls as needed\n- Output FINAL: <answer> when complete\n- Never give up — try different approaches if one fails\n"

/-- The plain nudge message (appended when fewer than 3 nudges sent). -/
def nudgeMsg : String :=
  "Continue. Use a SKILL if you need information, or output FINAL: when done."

/-- The forced-final message (appended from the 3rd nudge on). -/
def forcedFinalMsg : String :=
  "You have not used any skills or given a final answer. Either call a SKILL or output your best answer as:\nFINAL: <answer>"

/-- `_handle_skill_call` output truncation of massive results. -/
def trimSkillResult (s : String) : String :=
  if 6000 < s.length then
    s.take 5700 ++ "\n... [truncated, " ++ toString s.length ++ " total chars]"
  else s

/-- The user message wrapping a skill result. -/
def skillResultMsg (result : String) : String :=
  "Skill result:\n" ++ result ++ "\n\nContinue. Use more skills or output FINAL: when done."

/-- The `while tool_calls < max_tool_calls` loop of `execute_task`.
`replies i` is the i-th `ollama.chat` outcome, `handleSkill` the
behaviour of `_handle_skill_call` before truncation (it returns an
error string rather than raising).  `tool_calls` is incremented only
when a `SKILL:` block is matched; a reply with neither `FINAL:` nor a
`SKILL:` block only appends a nudge message. -/
def runExecAux (replies : Nat → ModelResp) (handleSkill : String → String)
    (model : String) (maxToolCalls : Nat) (tc idx : Nat) (msgs : List String)
    (lastReply : String) (fuel : Nat) : ExecOutcome :=
  if maxToolCalls ≤ tc then
    .done ⟨extractBestOutput lastReply, false,
      some ("Max tool calls (" ++ toString maxToolCalls ++ ") reached"), tc, model⟩
  else
    match fuel with
    | 0 => .outOfFuel
    | fuel + 1 =>
      match replies idx with
      | .oomErr e => .done ⟨lastReply, false, some ("OOM: " ++ e), tc, model⟩
      | .ok raw =>
        let reply := stripThink raw
        let msgs1 := msgs ++ [raw]
        match findFinal reply with
        | some out => .done ⟨out, true, none, tc, model⟩
        | none =>
          match findSkill reply with
          | some js =>
            runExecAux replies handleSkill model maxToolCalls (tc + 1) (idx + 1)
              (msgs1 ++ [skillResultMsg (trimSkillResult (handleSkill js))]) raw fuel
          | none =>
            runExecAux replies handleSkill model maxToolCalls tc (idx + 1)
              (msgs1 ++
                [if 3 ≤ (msgs1.filter
                    (fun m => matchesAt (String.toList ("Continue.")) m.toList)).length
                 then forcedFinalMsg else nudgeMsg]) raw fuel

/-- `execute_task(prompt, model, ...)`: the loop started on the
formatted tool-use prompt with `tool_calls = 0`. -/
def executeTask (prompt : String) (replies : Nat → ModelResp)
    (handleSkill : String → String) (model : String)
    (maxToolCalls fuel : Nat) : ExecOutcome :=
  runExecAux replies handleSkill model maxToolCalls 0 0 [toolUsePrompt prompt] "" fuel

/-- `check_for_escalation` (`src/core/model_manager.py`):
`re.search(r"ESCALATE:\s*(.+)", text)` — the reason on the line after
the first `ESCALATE:` sentinel, stripped (`.+` has no DOTALL, so the
capture stops at a newline and must be non-empty). -/
def checkForEscalation (responseText : String) : Option String :=
  match findSplit (String.toList ("ESCALATE:")) responseText.toList with
  | none => none
  | some (_, post) =>
    match (post.dropWhile Char.isWhitespace).takeWhile (fun ch => ch != '\n') with
    | [] => none
    | line => some (pyStrip (String.mk line))

/-- A reply that moves the loop on: an OOM error, a `FINAL:` answer, or
a `SKILL:` block (after think-block handling). -/
def replyProgresses : ModelResp → Prop
  | .oomErr _ => True
  | .ok raw => findFinal (stripThink raw) ≠ none ∨ findSkill (stripThink raw) ≠ none


/-! ## Heartbeat (`src/autonomous/heartbeat.py`) -/

/-- `USER_PAUSE_COOLDOWN = 30` (seconds). -/
def USER_PAUSE_COOLDOWN : Nat := 30

/-- The pause/resume state of `HeartbeatLoop`. -/
structure HBState where
  paused : Bool
  pauseUntil : Option Nat
  currentTaskId : Option Nat
deriving Repr, DecidableEq

/-- `HeartbeatLoop.is_paused`: within the cooldown window it reports
paused; otherwise it reports the `_paused` flag. -/
def isPaused (hb : HBState) (now : Nat) : Bool :=
  match hb.pauseUntil with
  | some u => if now < u then true else hb.paused
  | none => hb.paused

/-- `HeartbeatLoop.pause_for_user`: sets `_paused`, clears
`_pause_until` (indefinite), and returns any running task to pending. -/
def pauseForUser (hb : HBState) (s : QStore) : HBState × QStore :=
  ({ hb with paused := true, pauseUntil := none, currentTaskId := none },
   if hb.currentTaskId.isSome then pauseRunning s else s)

/-- `HeartbeatLoop.resume_after_user`: arms the cooldown
(`_pause_until = now + USER_PAUSE_COOLDOWN`) and clears `_paused`. -/
def resumeAfterUser (hb : HBState) (now : Nat) : HBState :=
  { hb with pauseUntil := some (now + USER_PAUSE_COOLDOWN), paused := false }

/-- What one `_tick` does: nothing (`idle`), a reflection model call
(`reflecting`), or claiming a task (which `start`s it and then runs
the background model on it). -/
inductive TickAction where
  | idle
  | reflecting
  | claimed (taskId : Nat)
deriving Repr, DecidableEq

/-- `HeartbeatLoop._tick`: an early `idle` return when paused;
otherwise claim `next_pending` (starting it), or reflect when the
queue is empty. -/
def hbTick (hb : HBState) (s : QStore) (now : Nat) : TickAction × QStore :=
  if isPaused hb now then (.idle, s)
  else
    match nextPending s.tasks now with
    | none => (if pendingCount s = 0 then .reflecting else .idle, s)
    | some t => (.claimed t.id, startTask s t.id now)

/-! ## Server `/chat` loops (`src/server.py`)

`_run_model` and `_run_model_streaming` share one branch structure
(the streaming variant additionally emits events); the decision logic
below embeds it once. -/

/-- The result dict of the `/chat` loops. -/
structure SrvResult where
  output : String
  success : Bool
  toolCalls : Nat
  model : String
deriving Repr, DecidableEq

/-- A fuelled run of the server loop: `outOfFuel` means the loop was
still asking the model after `fuel` replies. -/
inductive SrvOutcome where
  | done (r : SrvResult)
  | outOfFuel
deriving Repr, DecidableEq

/-- The server's nudge message, sent only on an empty reply. -/
def srvNudgeMsg : String := "Continue. SKILL: or FINAL: required."

/-- The server's skill-result truncation (`_run_model`). -/
def srvTrim (s : String) : String :=
  if 6000 < s.length then s.take 5700 ++ "...[truncated]" else s

/-- The server loop (`while tool_count < 20`). `replies i` is the i-th
model reply; `skillRun` is the combined `json.loads` +
`registry.run` step (`Except.error` for the caught exception). -/
def runModelAux (replies : Nat → String) (skillRun : String → Except String String)
    (model : String) (tc idx : Nat) (msgs : List String) (lastReply : String)
    (fuel : Nat) : SrvOutcome :=
  if 20 ≤ tc then
    .done ⟨pyStrip lastReply, pyStrip lastReply != "", tc, model⟩
  else
    match fuel with
    | 0 => .outOfFuel
    | fuel + 1 =>
      let raw := replies idx
      let reply := stripThink raw
      let msgs1 := msgs ++ [raw]
      match findFinal reply with
      | some out => .done ⟨out, true, tc, model⟩
      | none =>
        match findSkill reply with
        | some js =>
          match skillRun js with
          | .ok res =>
            runModelAux replies skillRun model (tc + 1) (idx + 1)
              (msgs1 ++ ["Skill result:\n" ++ srvTrim res ++ "\n\nContinue."]) raw fuel
          | .error e =>
            runModelAux replies skillRun model (tc + 1) (idx + 1)
              (msgs1 ++ ["Skill error: " ++ e ++ ". Try another."]) raw fuel
        | none =>
          if pyStrip raw != "" then .done ⟨pyStrip raw, true, tc, model⟩
          else
            runModelAux replies skillRun model tc (idx + 1)
              (msgs1 ++ [srvNudgeMsg]) raw fuel

/-- `_run_model(prompt, model, system, budget)` started on the
task-formatted message with `tool_count = 0`. -/
def runModel (prompt : String) (replies : Nat → String)
    (skillRun : String → Except String String) (model : String) (fuel : Nat) : SrvOutcome :=
  runModelAux replies skillRun model 0 0
    ["Task: " ++ prompt ++ "\n\nUse SKILL: \x7b...\x7d or FINAL: <answer>"] "" fuel

/-! ## Pre-pipeline (`src/core/pipeline_pre.py`)

`run_pre_pipeline` makes one `ollama.generate` call and parses one
JSON blob out of the reply.  The JSON extraction is abstracted: the
`llm` argument is the parsed blob (`none` when the call raised, no
JSON object was found, or parsing failed — every such path falls
through to the heuristic fallback).  The float `confidence`
passthrough is omitted (floating point; no claim mentions it). -/

/-- The closed category set `CATEGORIES`. -/
def CATEGORIES : List String :=
  ["general_chat", "coding", "debugging", "math", "reasoning",
   "summarization", "web_search", "data_analysis", "creative_writing",
   "translation", "planning", "shell_command", "file_management",
   "image_description", "screenshot_analysis", "task_management",
   "research", "skill_writing", "agentic_task", "error_recovery"]

/-- Python `str.lower()` (ASCII case folding). -/
def pyLower (s : String) : String := String.mk (s.toList.map Char.toLower)

/-- Python `kw in t`: substring containment. -/
def strContainsSub (s pat : String) : Bool :=
  (findSplit pat.toList s.toList).isSome

/-- The keyword rules of `_heuristic_category`, in source order. -/
def heuristicRules : List (List String × String) :=
  [(["write a skill", "new skill", "new tool", "create a skill"], "skill_writing"),
   (["debug", "fix this", "fix the", "error:", "traceback", "exception"], "debugging"),
   (["write a ", "create a ", "build a ", "implement "], "coding"),
   (["def ", "class ", "function(", "import "], "coding"),
   (["bash", "shell", "sudo ", "apt ", "pip install", "systemctl"], "shell_command"),
   (["calculate", "solve", "integral", "derivative", "equation"], "math"),
   (["search for", "look up", "find me", "what is the latest"], "web_search"),
   (["summarize", "tldr", "summary", "shorten"], "summarization"),
   (["translate", "in french", "in spanish", "in german"], "translation"),
   (["plan", "schedule", "roadmap", "steps to", "how do i"], "planning"),
   (["research", "investigate", "deep dive", "tell me everything"], "research"),
   (["screenshot", "what\x27s on screen", "what do you see"], "screenshot_analysis"),
   (["analyze", ".csv", "dataframe", "dataset", "graph"], "data_analysis")]

/-- `_heuristic_category`: the first rule one of whose keywords occurs
in the lowercased text, defaulting to `general_chat`. -/
def heuristicCategory (text : String) : String :=
  match heuristicRules.find?
      (fun rule => rule.1.any (fun kw => strContainsSub (pyLower text) kw)) with
  | some rule => rule.2
  | none => "general_chat"

/-- `_needs_tools`: any tool signal occurs in the lowercased text. -/
def needsToolsHeur (text : String) : Bool :=
  ["search", "fetch", "download", "run", "execute", "install",
   "file", "read", "write", "open", "browse", "screenshot",
   "latest", "current", "today", "news", "weather", "price"].any
    (fun sig => strContainsSub (pyLower text) sig)

/-- Helper for `pyWordCount`: counts maximal non-whitespace runs (the
flag records being inside a word). -/
def countWordsAux : List Char → Bool → Nat
  | [], _ => 0
  | c :: cs, inw =>
    if c.isWhitespace then countWordsAux cs false
    else (if inw then 0 else 1) + countWordsAux cs true

/-- Python `len(s.split())`: whitespace-separated word count. -/
def pyWordCount (s : String) : Nat := countWordsAux s.toList false

/-- The `skip_heavy` flag: `len(user_message.split()) < 4`.  The
source computes it but never consults it. -/
def skipHeavy (msg : String) : Bool := pyWordCount msg < 4

/-- The model's parsed JSON blob (`facts_is_list` is the
`isinstance(..., list)` check on the `facts` field). -/
structure ParsedPre where
  category : String
  needsTools : Bool
  rewritten : String
  factsIsList : Bool
  facts : List (String × String)
deriving Repr, DecidableEq

/-- The dict returned by `run_pre_pipeline`.  `modelCalled` records
whether `ollama.generate` was invoked on this run. -/
structure PreResult where
  category : String
  needsTools : Bool
  rewritten : String
  facts : List (String × String)
  source : String
  modelCalled : Bool
deriving Repr, DecidableEq

/-- `run_pre_pipeline(user_message)`.  `skip_heavy` is computed in the
source but never used: `ollama.generate` runs unconditionally, so
`modelCalled = true` on every path.  On a parsed blob: an unknown
category is replaced by `_heuristic_category(user_message)`, an empty
or over-long (stripped length > 5× the message length) rewrite is
replaced by the original message, and a non-list `facts` by `[]`. -/
def runPrePipeline (msg : String) (llm : Option ParsedPre) : PreResult :=
  match llm with
  | some p =>
    { category := if p.category ∈ CATEGORIES then p.category else heuristicCategory msg,
      needsTools := p.needsTools,
      rewritten :=
        if pyStrip p.rewritten = "" ∨ msg.length * 5 < (pyStrip p.rewritten).length
        then msg else p.rewritten,
      facts := if p.factsIsList then p.facts else [],
      source := "llm",
      modelCalled := true }
  | none =>
    { category := heuristicCategory msg, needsTools := needsToolsHeur msg,
      rewritten := msg, facts := [], source := "heuristic",
      modelCalled := true }

/-! # Theorems -/

/-! ### Helper lemmas about the queue -/

theorem keyLe_refl (t : QTask) : keyLe t t := Or.inr ⟨rfl, Nat.le_refl _⟩

theorem keyLtB_eq_true {b a : QTask} (h : keyLtB b a = true) : keyLe b a := by
  simp [keyLtB] at h
  unfold keyLe
  omega

theorem keyLtB_eq_false {b a : QTask} (h : keyLtB b a = false) : keyLe a b := by
  simp [keyLtB] at h
  unfold keyLe
  omega

theorem keyLe_trans {a b c : QTask} (h1 : keyLe a b) (h2 : keyLe b c) : keyLe a c := by
  unfold keyLe at *
  omega

theorem pickBest_eq_none {l : List QTask} : pickBest l = none ↔ l = [] := by
  cases l with
  | nil => simp [pickBest]
  | cons t ts =>
    simp only [pickBest]
    constructor
    · intro h
      cases hp : pickBest ts with
      | none => simp [hp] at h
      | some b =>
        rw [hp] at h
        by_cases hk : keyLtB b t = true <;> simp [hk] at h
    · intro h
      simp at h

theorem pickBest_mem {l : List QTask} {t : QTask} (h : pickBest l = some t) : t ∈ l := by
  induction l with
  | nil => simp [pickBest] at h
  | cons a l ih =>
    simp only [pickBest] at h
    cases hp : pickBest l with
    | none =>
      rw [hp] at h
      simp at h
      simp [h]
    | some b =>
      rw [hp] at h
      by_cases hk : keyLtB b a = true
      · simp [hk] at h
        subst h
        exact List.mem_cons_of_mem _ (ih hp)
      · simp [hk] at h
        simp [h]

theorem pickBest_min {l : List QTask} :
    ∀ {t : QTask}, pickBest l = some t → ∀ u ∈ l, keyLe t u := by
  induction l with
  | nil => intro t h; simp [pickBest] at h
  | cons a l ih =>
    intro t h
    simp only [pickBest] at h
    cases hp : pickBest l with
    | none =>
      rw [hp] at h
      simp at h
      subst h
      have hl : l = [] := pickBest_eq_none.mp hp
      subst hl
      intro u hu
      simp at hu
      subst hu
      exact keyLe_refl _
    | some b =>
      rw [hp] at h
      by_cases hk : keyLtB b a = true
      · simp [hk] at h
        subst h
        intro u hu
        rcases List.mem_cons.mp hu with h1 | h2
        · subst h1
          exact keyLtB_eq_true hk
        · exact ih hp u h2
      · have hkf : keyLtB b a = false := by simpa using hk
        simp [hk] at h
        subst h
        intro u hu
        rcases List.mem_cons.mp hu with h1 | h2
        · subst h1
          exact keyLe_refl _
        · exact keyLe_trans (keyLtB_eq_false hkf) (ih hp u h2)

theorem eligibleB_iff (now : Nat) (t : QTask) :
    eligibleB now t = true ↔ (t.status = "pending" ∧ t.scheduledAt ≤ now) := by
  simp [eligibleB]

theorem find?_updateTaskRows (l : List QTask) (id : Nat) (f : QTask → QTask)
    (hf : ∀ r, (f r).id = r.id) :
    (updateTaskRows l id f).find? (fun r => decide (r.id = id)) =
      (l.find? (fun r => decide (r.id = id))).map f := by
  induction l with
  | nil => rfl
  | cons a l ih =>
    by_cases h : a.id = id
    · simp [updateTaskRows, List.find?, h, hf]
    · simp only [updateTaskRows, List.map] at *
      simp [List.find?, h, ih]

/-! ## Claim C6 -/

/-- Claim C6: `next_pending()` returns, among tasks with
`status='pending'` and `scheduled_at ≤ now`, a task minimal for
`(priority ASC, created_at ASC)` (earliest row among key ties), and
returns nothing exactly when no task is eligible.  The call is a pure
read: by its type it takes the task list and produces only an optional
row, so no task state changes. -/
theorem C6_next_pending_minimal (tasks : List QTask) (now : Nat) :
    (∀ t, nextPending tasks now = some t →
      (t ∈ tasks ∧ t.status = "pending" ∧ t.scheduledAt ≤ now) ∧
      (∀ u ∈ tasks, u.status = "pending" → u.scheduledAt ≤ now → keyLe t u)) ∧
    (nextPending tasks now = none ↔
      ∀ u ∈ tasks, ¬(u.status = "pending" ∧ u.scheduledAt ≤ now)) := by
  constructor
  · intro t ht
    have hmem := pickBest_mem ht
    have hmin := pickBest_min ht
    rw [List.mem_filter] at hmem
    refine ⟨⟨hmem.1, (eligibleB_iff now t).mp hmem.2⟩, ?_⟩
    intro u hu h1 h2
    exact hmin u (List.mem_filter.mpr ⟨hu, (eligibleB_iff now u).mpr ⟨h1, h2⟩⟩)
  · rw [show (nextPending tasks now = none) ↔
        (tasks.filter (eligibleB now) = []) from pickBest_eq_none]
    rw [List.filter_eq_nil_iff]
    constructor
    · intro h u hu hc
      exact h u hu ((eligibleB_iff now u).mpr hc)
    · intro h u hu he
      exact h u hu ((eligibleB_iff now u).mp he)

/-! ## Claim C1 -/

/-- Claim C1: `fail(id, reason)` on a found row: if
`retry_count < max_retries` the row becomes pending with `retry_count`
incremented and `scheduled_at = now + 5·2^retry_count` (pre-call
`retry_count`), and a `retry_scheduled` entry is logged; otherwise the
row becomes failed and a `failed` entry is logged. -/
theorem C1_fail_retry_backoff (s : QStore) (id : Nat) (reason : String) (now : Nat)
    (t : QTask) (hfind : s.tasks.find? (fun r => decide (r.id = id)) = some t) :
    (t.retryCount < t.maxRetries →
      (failTask s id reason now).tasks.find? (fun r => decide (r.id = id)) =
        some { t with status := "pending", retryCount := t.retryCount + 1,
                      scheduledAt := now + 5 * 2 ^ t.retryCount } ∧
      (failTask s id reason now).log = s.log ++ [⟨id, "retry_scheduled",
        "attempt " ++ toString (t.retryCount + 1) ++ ", retry in " ++
          toString (5 * 2 ^ t.retryCount) ++ "m", now⟩]) ∧
    (t.maxRetries ≤ t.retryCount →
      (failTask s id reason now).tasks.find? (fun r => decide (r.id = id)) =
        some { t with status := "failed", completedAt := some now,
                      resultSummary := some ("FAILED: " ++ reason) } ∧
      (failTask s id reason now).log = s.log ++ [⟨id, "failed", reason, now⟩]) := by
  constructor
  · intro hlt
    unfold failTask
    rw [hfind]
    dsimp only
    rw [if_pos hlt]
    refine ⟨?_, rfl⟩
    have hupd := find?_updateTaskRows s.tasks id
      (fun r => { r with status := "pending", retryCount := r.retryCount + 1,
                         scheduledAt := now + 5 * 2 ^ t.retryCount }) (fun r => rfl)
    dsimp only
    rw [hupd, hfind]
    rfl
  · intro hge
    unfold failTask
    rw [hfind]
    dsimp only
    rw [if_neg (by omega)]
    refine ⟨?_, rfl⟩
    have hupd := find?_updateTaskRows s.tasks id
      (fun r => { r with status := "failed", completedAt := some now,
                         resultSummary := some ("FAILED: " ++ reason) }) (fun r => rfl)
    dsimp only
    rw [hupd, hfind]
    rfl

/-- Witness for C1: a task with `retry_count = 0 < 2 = max_retries`
failed at `now = 100` is rescheduled at `100 + 5·2^0`. -/
theorem C1_fail_retry_backoff_witness :
    (mkTask 1 2 "running" 0 0 0 2).retryCount < (mkTask 1 2 "running" 0 0 0 2).maxRetries ∧
    (failTask ⟨[mkTask 1 2 "running" 0 0 0 2], []⟩ 1 "boom" 100).tasks.find?
        (fun r => decide (r.id = 1)) =
      some { mkTask 1 2 "running" 0 0 0 2 with
             status := "pending",
             retryCount := (mkTask 1 2 "running" 0 0 0 2).retryCount + 1,
             scheduledAt := 100 + 5 * 2 ^ (mkTask 1 2 "running" 0 0 0 2).retryCount } :=
  ⟨by decide,
   ((C1_fail_retry_backoff ⟨[mkTask 1 2 "running" 0 0 0 2], []⟩ 1 "boom" 100
      (mkTask 1 2 "running" 0 0 0 2) rfl).1 (by decide)).1⟩

/-! ## Claim C2 -/

/-- Counterexample to C2 as stated: the claim says `start(id)` on a task
whose status is not `pending` changes zero rows and leaves the row
unchanged, but the source `UPDATE tasks SET status='running',
started_at=? WHERE id=?` matches on `id` only: starting a `done` task
overwrites its status to `running`. -/
theorem C2_start_counterexample :
    (mkTask 1 2 "done" 0 0 0 2).status = "done" ∧
    (startTask ⟨[mkTask 1 2 "done" 0 0 0 2], []⟩ 1 5).tasks =
      [{ mkTask 1 2 "done" 0 0 0 2 with status := "running", startedAt := some 5 }] := by
  exact ⟨rfl, rfl⟩

/-- Claim C2 amended: `start(id)` sets the row with that id to
`running` and stamps `started_at` unconditionally — the `UPDATE`
predicate does not require `status = 'pending'`, so a task in any
status transitions to running (double-start is not prevented). -/
theorem C2_start_unconditional (s : QStore) (id now : Nat) (r : QTask)
    (hr : r ∈ s.tasks) (hid : r.id = id) :
    { r with status := "running", startedAt := some now } ∈ (startTask s id now).tasks := by
  unfold startTask updateTaskRows
  simp only
  exact List.mem_map.mpr ⟨r, hr, by simp [hid]⟩

/-- Witness for the amended C2 at a concrete `done` task. -/
theorem C2_start_unconditional_witness :
    { mkTask 1 2 "done" 0 0 0 2 with status := "running", startedAt := some 5 } ∈
      (startTask ⟨[mkTask 1 2 "done" 0 0 0 2], []⟩ 1 5).tasks :=
  C2_start_unconditional ⟨[mkTask 1 2 "done" 0 0 0 2], []⟩ 1 5
    (mkTask 1 2 "done" 0 0 0 2) (by simp) rfl

/-! ## Claim C3 -/

/-- Counterexample to C3 as stated: after `pause_running()` has moved
the running row back to pending, the claim says a subsequent
`complete` is a no-op on that row; but `complete`'s `UPDATE ... WHERE
id=?` has no status predicate, so it still marks the row done. -/
theorem C3_complete_counterexample :
    ((pauseRunning ⟨[mkTask 1 2 "running" 0 0 0 2], []⟩).tasks.map QTask.status =
      ["pending"]) ∧
    ((completeTask (pauseRunning ⟨[mkTask 1 2 "running" 0 0 0 2], []⟩) 1 "finished" 9).tasks.map
        QTask.status = ["done"]) := by
  exact ⟨rfl, rfl⟩

/-- Claim C3 amended: `complete(id, summary)` updates the row with that
id unconditionally (the predicate is `WHERE id=?` only): whatever the
row's current status — including pending after `pause_running()` — it
becomes `done` with `completed_at` and `result_summary` set. -/
theorem C3_complete_unconditional (s : QStore) (id : Nat) (summary : String) (now : Nat)
    (r : QTask) (hr : r ∈ s.tasks) (hid : r.id = id) :
    { r with status := "done", completedAt := some now,
             resultSummary := some (summary.take 1000) } ∈
      (completeTask s id summary now).tasks := by
  unfold completeTask updateTaskRows
  simp only
  exact List.mem_map.mpr ⟨r, hr, by simp [hid]⟩

/-- Witness for the amended C3 at a concrete paused (pending) task. -/
theorem C3_complete_unconditional_witness :
    { mkTask 1 2 "pending" 0 0 0 2 with
      status := "done", completedAt := some 9,
      resultSummary := some (String.take "finished" 1000) } ∈
      (completeTask ⟨[mkTask 1 2 "pending" 0 0 0 2], []⟩ 1 "finished" 9).tasks :=
  C3_complete_unconditional ⟨[mkTask 1 2 "pending" 0 0 0 2], []⟩ 1 "finished" 9
    (mkTask 1 2 "pending" 0 0 0 2) (by simp) rfl

/-- Witness for C6: of two due pending tasks the one with the smaller
priority value is selected, and it is eligible. -/
theorem C6_next_pending_minimal_witness :
    nextPending [mkTask 1 2 "pending" 0 0 0 2, mkTask 2 1 "pending" 1 1 0 2] 5 =
      some (mkTask 2 1 "pending" 1 1 0 2) ∧
    ((mkTask 2 1 "pending" 1 1 0 2).status = "pending" ∧
      (mkTask 2 1 "pending" 1 1 0 2).scheduledAt ≤ 5) :=
  ⟨by decide,
   ((C6_next_pending_minimal
      [mkTask 1 2 "pending" 0 0 0 2, mkTask 2 1 "pending" 1 1 0 2] 5).1
      (mkTask 2 1 "pending" 1 1 0 2) (by decide)).1.2⟩

/-! ## Claim C4 -/

theorem exec_stuck_aux (handleSkill : String → String) (model : String) :
    ∀ (fuel idx : Nat) (msgs : List String) (last : String),
      runExecAux (fun _ => ModelResp.ok ("no")) handleSkill model 20 0 idx msgs last fuel =
        ExecOutcome.outOfFuel := by
  intro fuel
  induction fuel with
  | zero =>
    intro idx msgs last
    simp [runExecAux]
  | succ n ih =>
    intro idx msgs last
    have hff : findFinal (stripThink ("no")) = none := by decide
    have hfs : findSkill (stripThink ("no")) = none := by decide
    simp only [runExecAux, hff, hfs]
    rw [if_neg (by omega)]
    exact ih (idx + 1) _ ("no")

/-- Counterexample to C4 as stated: a model that forever replies with
neither a `FINAL:` answer nor a `SKILL:` block never terminates the
loop — `tool_calls` is only incremented on `SKILL:` matches, so the
budget guard never fires and every reply just appends a nudge: no
amount of fuel (model calls) finishes the run. -/
theorem C4_terminates_counterexample :
    ¬ ∃ fuel, executeTask ("summarise the news") (fun _ => ModelResp.ok ("no"))
        (fun _ => "") ("llama3.1:8b") 20 fuel ≠ ExecOutcome.outOfFuel := by
  rintro ⟨fuel, hne⟩
  exact hne (exec_stuck_aux (fun _ => "") ("llama3.1:8b") fuel 0 _ "")

theorem exec_good_aux (replies : Nat → ModelResp) (handleSkill : String → String)
    (model : String) (maxTC : Nat) (hgood : ∀ i, replyProgresses (replies i)) :
    ∀ (fuel : Nat), ∀ (tc idx : Nat) (msgs : List String) (last : String),
      maxTC + 1 ≤ fuel + tc → tc ≤ maxTC →
      ∃ r, runExecAux replies handleSkill model maxTC tc idx msgs last fuel =
        ExecOutcome.done r ∧ r.toolCalls ≤ maxTC := by
  intro fuel
  induction fuel with
  | zero =>
    intro tc idx msgs last hge hle
    omega
  | succ n ih =>
    intro tc idx msgs last hge hle
    by_cases htc : maxTC ≤ tc
    · refine ⟨⟨extractBestOutput last, false,
        some ("Max tool calls (" ++ toString maxTC ++ ") reached"), tc, model⟩, ?_, hle⟩
      simp [runExecAux, htc]
    · cases hres : replies idx with
      | oomErr e =>
        refine ⟨⟨last, false, some ("OOM: " ++ e), tc, model⟩, ?_, hle⟩
        simp [runExecAux, htc, hres]
      | ok raw =>
        have hprog := hgood idx
        rw [hres] at hprog
        cases hff : findFinal (stripThink raw) with
        | some out =>
          refine ⟨⟨out, true, none, tc, model⟩, ?_, hle⟩
          simp [runExecAux, htc, hres, hff]
        | none =>
          cases hfs : findSkill (stripThink raw) with
          | none =>
            exfalso
            rcases hprog with h | h
            · exact h hff
            · exact h hfs
          | some js =>
            obtain ⟨r, hr, hrle⟩ := ih (tc + 1) (idx + 1)
              (msgs ++ [raw] ++ [skillResultMsg (trimSkillResult (handleSkill js))]) raw
              (by omega) (by omega)
            refine ⟨r, ?_, hrle⟩
            simp only [runExecAux, hres, hff, hfs]
            rw [if_neg htc]
            exact hr

/-- Claim C4 amended: `execute_task` performs at most `max_tool_calls`
tool calls, and terminates — in `FINAL:` success, OOM failure, or
budget exhaustion — within `max_tool_calls + 1` model calls *provided*
every model reply carries a `FINAL:` answer or a `SKILL:` block (or is
an OOM error).  Without that assumption the loop need not terminate,
since a reply with neither merely appends a nudge and does not count
toward the budget (see the counterexample). -/
theorem C4_executor_budget_amended (prompt : String) (replies : Nat → ModelResp)
    (handleSkill : String → String) (model : String) (maxToolCalls : Nat)
    (hgood : ∀ i, replyProgresses (replies i)) :
    ∃ r, executeTask prompt replies handleSkill model maxToolCalls (maxToolCalls + 1) =
      ExecOutcome.done r ∧ r.toolCalls ≤ maxToolCalls := by
  unfold executeTask
  exact exec_good_aux replies handleSkill model maxToolCalls hgood
    (maxToolCalls + 1) 0 0 [toolUsePrompt prompt] "" (by omega) (by omega)

/-- Witness for the amended C4: a model that immediately answers
`FINAL:` terminates within the budget. -/
theorem C4_executor_budget_amended_witness :
    (∀ i : Nat, replyProgresses ((fun _ => ModelResp.ok ("FINAL: done")) i)) ∧
    ∃ r, executeTask ("p") (fun _ => ModelResp.ok ("FINAL: done"))
        (fun _ => "") ("llama3.2:3b") 20 21 =
      ExecOutcome.done r ∧ r.toolCalls ≤ 20 :=
  ⟨fun _ => Or.inl (by decide),
   C4_executor_budget_amended ("p") (fun _ => ModelResp.ok ("FINAL: done"))
     (fun _ => "") ("llama3.2:3b") 20 (fun _ => Or.inl (by decide))⟩

/-! ## Claim C5 -/

/-- Claim C5 (code bug): when the routed small model replies with the
`ESCALATE:` sentinel, `check_for_escalation` would extract the reason —
but `execute_task` never consults it: the sentinel reply falls into the
nudge branch, the loop keeps querying the *same* model, and the run's
result (whose `model` field is what gets logged as
`Interaction.model_used`) still names the small model, not the
escalation target. -/
theorem C5_escalation_ignored :
    checkForEscalation ("ESCALATE: needs longer context") = some ("needs longer context") ∧
    executeTask ("long task")
        (fun i => if i = 0 then ModelResp.ok ("ESCALATE: needs longer context")
                  else ModelResp.ok ("FINAL: ok"))
        (fun _ => "") ("llama3.1:8b") 20 3 =
      ExecOutcome.done ⟨"ok", true, none, 0, "llama3.1:8b"⟩ := by
  constructor
  · decide
  · decide

/-! ## Claim C9 -/

/-- Claim C9: after `pause_for_user()` (and before any resume) every
tick is idle — no task claimed, no model invocation; after
`resume_after_user()` at time `tResume`, ticks with
`now < tResume + 30` are likewise idle, and once
`now ≥ tResume + 30` a tick claims exactly the `next_pending` task
when there is one. -/
theorem C9_pause_resume_gating (hb : HBState) (s s2 : QStore) (tResume : Nat) :
    (∀ now, hbTick (pauseForUser hb s2).1 s now = (TickAction.idle, s)) ∧
    (∀ now, now < tResume + USER_PAUSE_COOLDOWN →
      hbTick (resumeAfterUser hb tResume) s now = (TickAction.idle, s)) ∧
    (∀ now, tResume + USER_PAUSE_COOLDOWN ≤ now →
      ∀ t, nextPending s.tasks now = some t →
        hbTick (resumeAfterUser hb tResume) s now =
          (TickAction.claimed t.id, startTask s t.id now)) := by
  refine ⟨?_, ?_, ?_⟩
  · intro now
    simp [hbTick, isPaused, pauseForUser]
  · intro now hlt
    simp [hbTick, isPaused, resumeAfterUser, hlt]
  · intro now hge t ht
    have hnp : ¬ now < tResume + USER_PAUSE_COOLDOWN := by omega
    simp [hbTick, isPaused, resumeAfterUser, hnp, ht]

/-- Witness for C9 at a concrete state: a paused tick is idle, a tick
inside the cooldown is idle, and a tick after the cooldown claims the
one due pending task. -/
theorem C9_pause_resume_gating_witness :
    (hbTick (pauseForUser ⟨false, none, none⟩ ⟨[], []⟩).1
        ⟨[mkTask 1 2 "pending" 0 0 0 2], []⟩ 99 =
      (TickAction.idle, ⟨[mkTask 1 2 "pending" 0 0 0 2], []⟩)) ∧
    (hbTick (resumeAfterUser ⟨false, none, none⟩ 100)
        ⟨[mkTask 1 2 "pending" 0 0 0 2], []⟩ 110 =
      (TickAction.idle, ⟨[mkTask 1 2 "pending" 0 0 0 2], []⟩)) ∧
    (hbTick (resumeAfterUser ⟨false, none, none⟩ 100)
        ⟨[mkTask 1 2 "pending" 0 0 0 2], []⟩ 130 =
      (TickAction.claimed 1, startTask ⟨[mkTask 1 2 "pending" 0 0 0 2], []⟩ 1 130)) :=
  ⟨(C9_pause_resume_gating ⟨false, none, none⟩
      ⟨[mkTask 1 2 "pending" 0 0 0 2], []⟩ ⟨[], []⟩ 100).1 99,
   (C9_pause_resume_gating ⟨false, none, none⟩
      ⟨[mkTask 1 2 "pending" 0 0 0 2], []⟩ ⟨[], []⟩ 100).2.1 110 (by decide),
   (C9_pause_resume_gating ⟨false, none, none⟩
      ⟨[mkTask 1 2 "pending" 0 0 0 2], []⟩ ⟨[], []⟩ 100).2.2 130 (by decide)
      (mkTask 1 2 "pending" 0 0 0 2) (by decide)⟩

/-! ## Claim C10 -/

/-- Claim C10: in the `/chat` loops, a non-empty model reply with
neither a `FINAL:` marker nor a `SKILL:` block (as the loop looks for
them, after think-block handling) is accepted immediately as the final
answer with `success = true` and no nudge; only a reply that is empty
after stripping appends the nudge message and continues. -/
theorem C10_plain_reply_accepted (replies : Nat → String)
    (skillRun : String → Except String String) (model : String)
    (tc idx : Nat) (msgs : List String) (lastReply : String) (fuel : Nat)
    (htc : tc < 20)
    (hff : findFinal (stripThink (replies idx)) = none)
    (hfs : findSkill (stripThink (replies idx)) = none) :
    (pyStrip (replies idx) ≠ "" →
      runModelAux replies skillRun model tc idx msgs lastReply (fuel + 1) =
        SrvOutcome.done ⟨pyStrip (replies idx), true, tc, model⟩) ∧
    (pyStrip (replies idx) = "" →
      runModelAux replies skillRun model tc idx msgs lastReply (fuel + 1) =
        runModelAux replies skillRun model tc (idx + 1)
          (msgs ++ [replies idx] ++ [srvNudgeMsg]) (replies idx) fuel) := by
  have hnotle : ¬ 20 ≤ tc := by omega
  constructor
  · intro hne
    have hb : (pyStrip (replies idx) != "") = true := by
      simpa using hne
    simp only [runModelAux, hff, hfs, hb]
    rw [if_neg hnotle]
    simp
  · intro heq
    have hb : (pyStrip (replies idx) != "") = false := by
      simp [heq]
    simp only [runModelAux, hff, hfs, hb]
    rw [if_neg hnotle]
    simp

/-- Witness for C10: the plain reply `Here is my answer.` (no `FINAL:`,
no `SKILL:` block) is returned as a successful final answer at once. -/
theorem C10_plain_reply_accepted_witness :
    pyStrip ("Here is my answer.") ≠ "" ∧
    runModelAux (fun _ => "Here is my answer.") (fun _ => Except.error ("n/a"))
        ("llama3.2:3b") 0 0 [] "" 5 =
      SrvOutcome.done ⟨pyStrip ("Here is my answer."), true, 0, "llama3.2:3b"⟩ :=
  ⟨by decide,
   (C10_plain_reply_accepted (fun _ => "Here is my answer.")
      (fun _ => Except.error ("n/a")) ("llama3.2:3b") 0 0 [] "" 4
      (by decide) (by decide) (by decide)).1 (by decide)⟩

/-! ## Claim C7 -/

/-- Claim C7 (code bug): the spec's short-circuit for messages of at
most 3 words does not exist in the code.  `skip_heavy` is true for the
3-word message, yet the model is called on every path, and when the
model's blob parses the returned intent carries the model's category,
rewrite and facts — not `{heuristic, original, []}`. -/
theorem C7_short_message_no_shortcircuit :
    skipHeavy ("hi there friend") = true ∧
    (runPrePipeline ("hi there friend")
        (some ⟨"coding", true, "Please write some code", true, [("name", "Alice")]⟩)).modelCalled
      = true ∧
    (runPrePipeline ("hi there friend") none).modelCalled = true ∧
    (runPrePipeline ("hi there friend")
        (some ⟨"coding", true, "Please write some code", true, [("name", "Alice")]⟩)).category
      = "coding" ∧
    heuristicCategory ("hi there friend") = "general_chat" ∧
    (runPrePipeline ("hi there friend")
        (some ⟨"coding", true, "Please write some code", true, [("name", "Alice")]⟩)).facts
      = [("name", "Alice")] := by
  refine ⟨by decide, rfl, rfl, ?_, ?_, ?_⟩ <;> decide

/-! ## Claim C8 -/

/-- Counterexample to C8 as stated: a parsed blob whose category is
outside the closed set is coerced to `_heuristic_category(message)`,
not to `general_chat`: for a message containing `debug` the returned
category is `debugging`. -/
theorem C8_invalid_category_counterexample :
    (runPrePipeline ("please debug this for me")
        (some ⟨"bogus", false, "", true, []⟩)).category = "debugging" ∧
    ("debugging" : String) ≠ "general_chat" := by
  constructor
  · decide
  · decide

/-- Claim C8 amended: when the model reply parses but its category is
not in the closed set, the returned category is
`_heuristic_category(user_message)` — which is `general_chat` exactly
when no heuristic keyword rule matches the message. -/
theorem C8_invalid_category_coerced (msg : String) (p : ParsedPre)
    (hcat : p.category ∉ CATEGORIES) :
    (runPrePipeline msg (some p)).category = heuristicCategory msg := by
  unfold runPrePipeline
  simp [hcat]

/-- Witness for the amended C8 at the counterexample's input. -/
theorem C8_invalid_category_coerced_witness :
    (⟨"bogus", false, "", true, []⟩ : ParsedPre).category ∉ CATEGORIES ∧
    (runPrePipeline ("please debug this for me")
        (some ⟨"bogus", false, "", true, []⟩)).category =
      heuristicCategory ("please debug this for me") :=
  ⟨by decide,
   C8_invalid_category_coerced ("please debug this for me")
     ⟨"bogus", false, "", true, []⟩ (by decide)⟩
